import Mathlib

set_option maxRecDepth 10000

/-!
# Verification of the binary framing protocol (`server/binary_protocol.py`)

Shallow embedding of the framing/codec layer: CRC-16/CCITT-FALSE checksum,
payload serializer (`PayloadBuilder`), payload deserializer (`PayloadParser`),
frame codec (`encode_frame` / `decode_frame`) and the encoder-data response
parser.

Modelling conventions:
* Python `bytes` / `bytearray` values are `List Nat` whose entries are < 256
  (the type `bytes` enforces this in Python; theorems carry the range as a
  hypothesis where it matters).
* Python `str` values are represented by their UTF-8 byte encoding
  (`value.encode('utf-8')` in the source); `read_string`'s
  `decode('utf-8', errors='replace')` is the identity on the valid encodings
  produced by `add_string`, so string round-trips are stated at byte level.
* Python `float` values appear only through their IEEE-754 single-precision
  bit pattern (`struct.pack('>f')` / `struct.unpack('>f')`); the numeric
  float semantics is irrelevant to the buffer/cursor properties verified here,
  so `add_float` takes and `read_float` returns the 32-bit pattern.
* A raised Python exception is modelled as `Except.error`; a returned
  `None` is `Option.none`.
* Mutating methods become state-passing functions `State → result × State`.
-/

namespace BinaryProtocol

/-- Protocol constant `PROTO_START_BYTE = 0xAA`. -/
def PROTO_START_BYTE : Nat := 0xAA

/-- Protocol constant `PROTO_MAX_PAYLOAD = 1024`. -/
def PROTO_MAX_PAYLOAD : Nat := 1024

/-- `struct.pack('>H', v)`: 2 big-endian bytes. Callers in the source always
pass `v < 65536` (a length ≤ 1024 or a CRC masked to 16 bits); Python raises
for out-of-range values, which no modelled call path reaches. -/
def pack_u16 (v : Nat) : List Nat := [v / 256, v % 256]

/-- `struct.unpack('>H', bytes a b)`: big-endian 16-bit value. -/
def unpack_u16 (a b : Nat) : Nat := a * 256 + b

/-- `struct.pack('>I'-style, v)`: 4 big-endian bytes of a 32-bit value. -/
def pack_u32 (v : Nat) : List Nat :=
  [v / 16777216 % 256, v / 65536 % 256, v / 256 % 256, v % 256]

/-- Two's-complement reading of a 16-bit value (`struct.unpack('>h')`). -/
def toInt16 (u : Nat) : Int := if u < 32768 then (u : Int) else (u : Int) - 65536

/-- Two's-complement reading of a 32-bit value (`struct.unpack('>i')`). -/
def toInt32 (u : Nat) : Int :=
  if u < 2147483648 then (u : Int) else (u : Int) - 4294967296

/-- `struct.pack('>h', v)`: two's-complement big-endian bytes. The source only
packs values in int16 range (Python raises `struct.error` otherwise; no
modelled call path passes an out-of-range value). -/
def pack_i16 (v : Int) : List Nat := pack_u16 (v % 65536).toNat

/-- `struct.pack('>i', v)`: two's-complement big-endian bytes, same caveat. -/
def pack_i32 (v : Int) : List Nat := pack_u32 (v % 4294967296).toNat

/-- `PayloadBuilder.__init__`: growable buffer plus configured cap
(`max_size`, default `PROTO_MAX_PAYLOAD` at the Python call sites). -/
structure PayloadBuilder where
  buffer : List Nat
  max_size : Nat
deriving DecidableEq

/-- `PayloadBuilder.add_uint8`: `value & 0xFF` appended unless the append
would exceed `max_size`. -/
def PayloadBuilder.add_uint8 (self : PayloadBuilder) (value : Nat) :
    Bool × PayloadBuilder :=
  if self.buffer.length + 1 > self.max_size then (false, self)
  else (true, { self with buffer := self.buffer ++ [value &&& 0xFF] })

/-- `PayloadBuilder.add_int16`. -/
def PayloadBuilder.add_int16 (self : PayloadBuilder) (value : Int) :
    Bool × PayloadBuilder :=
  if self.buffer.length + 2 > self.max_size then (false, self)
  else (true, { self with buffer := self.buffer ++ pack_i16 value })

/-- `PayloadBuilder.add_uint16`. -/
def PayloadBuilder.add_uint16 (self : PayloadBuilder) (value : Nat) :
    Bool × PayloadBuilder :=
  if self.buffer.length + 2 > self.max_size then (false, self)
  else (true, { self with buffer := self.buffer ++ pack_u16 (value % 65536) })

/-- `PayloadBuilder.add_int32`. -/
def PayloadBuilder.add_int32 (self : PayloadBuilder) (value : Int) :
    Bool × PayloadBuilder :=
  if self.buffer.length + 4 > self.max_size then (false, self)
  else (true, { self with buffer := self.buffer ++ pack_i32 value })

/-- `PayloadBuilder.add_float`: appends the 4 big-endian bytes of the IEEE-754
bit pattern `bits` of the float argument. -/
def PayloadBuilder.add_float (self : PayloadBuilder) (bits : Nat) :
    Bool × PayloadBuilder :=
  if self.buffer.length + 4 > self.max_size then (false, self)
  else (true, { self with buffer := self.buffer ++ pack_u32 (bits % 4294967296) })

/-- `PayloadBuilder.add_string`: `encoded` is the UTF-8 encoding of the string
argument. Overflow is checked first, then the 255-byte bound; on success a
one-byte length prefix and the encoded bytes are appended. -/
def PayloadBuilder.add_string (self : PayloadBuilder) (encoded : List Nat) :
    Bool × PayloadBuilder :=
  if self.buffer.length + 1 + encoded.length > self.max_size then (false, self)
  else if encoded.length > 255 then (false, self)
  else (true, { self with buffer := self.buffer ++ encoded.length :: encoded })

/-- `PayloadBuilder.add_bytes`. -/
def PayloadBuilder.add_bytes (self : PayloadBuilder) (data : List Nat) :
    Bool × PayloadBuilder :=
  if self.buffer.length + data.length > self.max_size then (false, self)
  else (true, { self with buffer := self.buffer ++ data })

/-- `PayloadBuilder.get_payload`: `bytes(self.buffer)` — an immutable copy of
the accumulated bytes; the builder state is returned unchanged (the Python
method mutates nothing). -/
def PayloadBuilder.get_payload (self : PayloadBuilder) :
    List Nat × PayloadBuilder :=
  (self.buffer, self)

/-- `PayloadParser.__init__`: fixed buffer plus read cursor starting at 0. -/
structure PayloadParser where
  buffer : List Nat
  position : Nat
deriving DecidableEq

/-- `PayloadParser.remaining`. -/
def PayloadParser.remaining (self : PayloadParser) : Nat :=
  self.buffer.length - self.position

/-- `PayloadParser.read_uint8`. -/
def PayloadParser.read_uint8 (self : PayloadParser) :
    Option Nat × PayloadParser :=
  if self.position + 1 > self.buffer.length then (none, self)
  else (some (self.buffer.getD self.position 0),
        { self with position := self.position + 1 })

/-- `PayloadParser.read_int16`. -/
def PayloadParser.read_int16 (self : PayloadParser) :
    Option Int × PayloadParser :=
  if self.position + 2 > self.buffer.length then (none, self)
  else (some (toInt16 (unpack_u16 (self.buffer.getD self.position 0)
                        (self.buffer.getD (self.position + 1) 0))),
        { self with position := self.position + 2 })

/-- `PayloadParser.read_uint16`. -/
def PayloadParser.read_uint16 (self : PayloadParser) :
    Option Nat × PayloadParser :=
  if self.position + 2 > self.buffer.length then (none, self)
  else (some (unpack_u16 (self.buffer.getD self.position 0)
               (self.buffer.getD (self.position + 1) 0)),
        { self with position := self.position + 2 })

/-- `PayloadParser.read_int32`. -/
def PayloadParser.read_int32 (self : PayloadParser) :
    Option Int × PayloadParser :=
  if self.position + 4 > self.buffer.length then (none, self)
  else (some (toInt32
          ((self.buffer.getD self.position 0) * 16777216 +
           (self.buffer.getD (self.position + 1) 0) * 65536 +
           (self.buffer.getD (self.position + 2) 0) * 256 +
           self.buffer.getD (self.position + 3) 0)),
        { self with position := self.position + 4 })

/-- `PayloadParser.read_float`: returns the big-endian 32-bit pattern of the
4 bytes (`struct.unpack('>f')` interprets that pattern as IEEE-754). -/
def PayloadParser.read_float (self : PayloadParser) :
    Option Nat × PayloadParser :=
  if self.position + 4 > self.buffer.length then (none, self)
  else (some
          ((self.buffer.getD self.position 0) * 16777216 +
           (self.buffer.getD (self.position + 1) 0) * 65536 +
           (self.buffer.getD (self.position + 2) 0) * 256 +
           self.buffer.getD (self.position + 3) 0),
        { self with position := self.position + 4 })

/-- `PayloadParser.read_string`: reads a one-byte length via `read_uint8`
(which advances past that byte on success), then the byte span of that
length. The returned value is the raw span; `decode('utf-8',
errors='replace')` maps it to text, and is the identity on valid UTF-8. -/
def PayloadParser.read_string (self : PayloadParser) :
    Option (List Nat) × PayloadParser :=
  match self.read_uint8 with
  | (none, s) => (none, s)
  | (some length, s) =>
    if s.position + length > s.buffer.length then (none, s)
    else (some ((s.buffer.drop s.position).take length),
          { s with position := s.position + length })

/-- `PayloadParser.read_bytes`. -/
def PayloadParser.read_bytes (self : PayloadParser) (length : Nat) :
    Option (List Nat) × PayloadParser :=
  if self.position + length > self.buffer.length then (none, self)
  else (some ((self.buffer.drop self.position).take length),
        { self with position := self.position + length })

/-- One inner round of `crc16_ccitt`: conditional shift/XOR then 16-bit mask. -/
def crc16_round (crc : Nat) : Nat :=
  (if crc &&& 0x8000 ≠ 0 then (crc <<< 1) ^^^ 0x1021 else crc <<< 1) &&& 0xFFFF

/-- Per-byte step of `crc16_ccitt`: `crc ^= byte << 8` then 8 rounds. -/
def crc16_update (crc byte : Nat) : Nat :=
  crc16_round^[8] (crc ^^^ (byte <<< 8))

/-- `crc16_ccitt(data)`: fold over the input bytes from register `0xFFFF`. -/
def crc16_ccitt (data : List Nat) : Nat :=
  data.foldl crc16_update 0xFFFF

/-- `encode_frame(command_id, payload)`. The oversized-payload `raise
ValueError` of the source is the first `Except.error`; the second models the
`ValueError` that `bytearray.append(command_id)` raises for a value outside
`range(0, 256)`. -/
def encode_frame (command_id : Nat) (payload : List Nat) :
    Except String (List Nat) :=
  if payload.length > PROTO_MAX_PAYLOAD then
    Except.error ("Payload too large: " ++ toString payload.length ++ " > " ++
      toString PROTO_MAX_PAYLOAD)
  else if command_id > 255 then
    Except.error "byte must be in range(0, 256)"
  else
    let length := payload.length
    let crc_data := command_id :: pack_u16 length ++ payload
    let crc := crc16_ccitt crc_data
    Except.ok (PROTO_START_BYTE :: command_id :: pack_u16 length ++ payload ++
      pack_u16 crc)

/-- `decode_frame(data)`: returns `(command_id, payload)` or `none`. -/
def decode_frame (data : List Nat) : Option (Nat × List Nat) :=
  if data.length < 6 then none
  else if data.getD 0 0 ≠ PROTO_START_BYTE then none
  else
    let command_id := data.getD 1 0
    let length := unpack_u16 (data.getD 2 0) (data.getD 3 0)
    if data.length < 6 + length then none
    else
      let payload := (data.drop 4).take length
      let received_crc :=
        unpack_u16 (data.getD (4 + length) 0) (data.getD (5 + length) 0)
      let crc_data := (data.drop 1).take (3 + length)
      let calculated_crc := crc16_ccitt crc_data
      if received_crc ≠ calculated_crc then none
      else some (command_id, payload)

/-- Result record of `parse_encoder_data`. -/
structure EncoderData where
  position : Int
  velocity : Nat
  button_pressed : Bool
deriving DecidableEq

/-- `parse_encoder_data(payload)`: int16 position, then uint8 velocity and
uint8 button, the trailing two defaulting when unreadable. -/
def parse_encoder_data (payload : List Nat) : Option EncoderData :=
  let parser : PayloadParser := { buffer := payload, position := 0 }
  let step1 := parser.read_int16
  let step2 := step1.2.read_uint8
  let step3 := step2.2.read_uint8
  match step1.1 with
  | none => none
  | some pos =>
    some { position := pos,
           velocity := (step2.1).getD 0,
           button_pressed := match step3.1 with
             | some b => b == 1
             | none => false }

/-! ## Spec-side reference definitions (for refinement claims) -/

/-- One round of the spec's CRC description (§4.1), written from the spec's
words: shift the register left one bit, XOR with the polynomial `0x1021` when
the high bit (bit 15) was set, mask to 16 bits after the round. -/
def crc16_ref_round (c : Nat) : Nat :=
  (if Nat.testBit c 15 then (2 * c) ^^^ 0x1021 else 2 * c) % 65536

/-- `n` rounds of `crc16_ref_round`. -/
def crc16_ref_rounds : Nat → Nat → Nat
  | 0, c => c
  | n + 1, c => crc16_ref_rounds n (crc16_ref_round c)

/-- Reference CRC-16/CCITT-FALSE recursion, from the spec's words: each input
byte is XORed into the high byte of the register, then 8 rounds are applied. -/
def crc16_reference_go (c : Nat) : List Nat → Nat
  | [] => c
  | b :: rest => crc16_reference_go (crc16_ref_rounds 8 (c ^^^ (b * 256))) rest

/-- Reference CRC-16/CCITT-FALSE: register initialised to `0xFFFF`, no
reflection, no final XOR. -/
def crc16_reference (data : List Nat) : Nat :=
  crc16_reference_go 0xFFFF data

/-- Declared payload length of a candidate frame: bytes 2 and 3, big-endian
(the claim's wording for the length field). -/
def declared_length (data : List Nat) : Nat :=
  (data.getD 2 0) * 256 + data.getD 3 0

/-- The malformed-frame condition as the claim states it: total length below
6, or first byte not the start marker, or `6 + declared length` exceeding the
buffer length, or the CRC-16 recomputed over bytes `[1 .. 4+length)` differing
from the trailing 2 big-endian checksum bytes. -/
def malformed_frame (data : List Nat) : Bool :=
  decide (data.length < 6) ||
  decide (data.getD 0 0 ≠ 0xAA) ||
  decide (data.length < 6 + declared_length data) ||
  decide (crc16_ccitt ((data.drop 1).take (3 + declared_length data)) ≠
    (data.getD (4 + declared_length data) 0) * 256 +
      data.getD (5 + declared_length data) 0)

/-! ## Helper lemmas -/

theorem crc16_round_eq_ref (c : Nat) : crc16_round c = crc16_ref_round c := by
  have hmask : ∀ x : Nat, x &&& 0xFFFF = x % 65536 := fun x =>
    Nat.and_pow_two_sub_one_eq_mod x 16
  have hshift : c <<< 1 = 2 * c := by rw [Nat.shiftLeft_eq]; ring
  have hbit : (c &&& 0x8000 ≠ 0) ↔ c.testBit 15 := by
    have h := Nat.and_two_pow c 15
    norm_num at h
    rw [h]
    cases hb : c.testBit 15 <;> simp
  unfold crc16_round crc16_ref_round
  by_cases hb : c.testBit 15
  · rw [if_pos (hbit.mpr hb), if_pos hb, hmask, hshift]
  · rw [if_neg (fun hc => hb (hbit.mp hc)), if_neg hb, hmask, hshift]

theorem crc16_ref_rounds_eq (n c : Nat) :
    crc16_ref_rounds n c = crc16_round^[n] c := by
  induction n generalizing c with
  | zero => rfl
  | succ n ih =>
    rw [Function.iterate_succ_apply, crc16_round_eq_ref,
      show crc16_ref_rounds (n + 1) c = crc16_ref_rounds n (crc16_ref_round c)
        from rfl]
    exact ih _

theorem crc16_reference_go_eq (data : List Nat) (c : Nat) :
    crc16_reference_go c data = data.foldl crc16_update c := by
  induction data generalizing c with
  | nil => rfl
  | cons b rest ih =>
    show crc16_reference_go (crc16_ref_rounds 8 (c ^^^ (b * 256))) rest = _
    rw [List.foldl_cons, ih]
    congr 1
    rw [crc16_ref_rounds_eq]
    unfold crc16_update
    rw [Nat.shiftLeft_eq]

/-- Decoding a frame of the constructed shape, for arbitrary trailing
checksum bytes. -/
theorem decode_construct (cid L : Nat) (payload : List Nat) (k1 k2 : Nat)
    (hL : payload.length = L) :
    decode_frame (0xAA :: cid :: L / 256 :: L % 256 :: (payload ++ [k1, k2])) =
      if k1 * 256 + k2 ≠ crc16_ccitt (cid :: L / 256 :: L % 256 :: payload) then
        none
      else some (cid, payload) := by
  have hsplit :
      0xAA :: cid :: L / 256 :: L % 256 :: (payload ++ [k1, k2]) =
        (0xAA :: cid :: L / 256 :: L % 256 :: payload) ++ [k1, k2] := by
    simp
  have hplen : (0xAA :: cid :: L / 256 :: L % 256 :: payload).length = 4 + L := by
    simp [hL]
    omega
  have hlen :
      (0xAA :: cid :: L / 256 :: L % 256 :: (payload ++ [k1, k2])).length =
        6 + L := by
    simp [hL]
    omega
  have hk1 :
      (0xAA :: cid :: L / 256 :: L % 256 :: (payload ++ [k1, k2])).getD
        (4 + L) 0 = k1 := by
    rw [hsplit, List.getD_eq_getElem?_getD,
      List.getElem?_append_right (by rw [hplen])]
    rw [hplen]
    simp
  have hk2 :
      (0xAA :: cid :: L / 256 :: L % 256 :: (payload ++ [k1, k2])).getD
        (5 + L) 0 = k2 := by
    rw [hsplit, List.getD_eq_getElem?_getD,
      List.getElem?_append_right (by rw [hplen]; omega)]
    rw [hplen]
    have : 5 + L - (4 + L) = 1 := by omega
    rw [this]
    simp
  have hdrop4 :
      (0xAA :: cid :: L / 256 :: L % 256 :: (payload ++ [k1, k2])).drop 4 =
        payload ++ [k1, k2] := rfl
  have htake : (payload ++ [k1, k2]).take L = payload := by
    rw [← hL]
    exact List.take_left _ _
  have hcrcslice :
      ((0xAA :: cid :: L / 256 :: L % 256 :: (payload ++ [k1, k2])).drop 1).take
        (3 + L) = cid :: L / 256 :: L % 256 :: payload := by
    have hd1 :
        (0xAA :: cid :: L / 256 :: L % 256 :: (payload ++ [k1, k2])).drop 1 =
          (cid :: L / 256 :: L % 256 :: payload) ++ [k1, k2] := by
      simp
    rw [hd1, show 3 + L = (cid :: L / 256 :: L % 256 :: payload).length from
      by simp [hL]; omega]
    exact List.take_left _ _
  have hg0 :
      (0xAA :: cid :: L / 256 :: L % 256 :: (payload ++ [k1, k2])).getD 0 0 =
        0xAA := rfl
  have hg1 :
      (0xAA :: cid :: L / 256 :: L % 256 :: (payload ++ [k1, k2])).getD 1 0 =
        cid := rfl
  have hg2 :
      (0xAA :: cid :: L / 256 :: L % 256 :: (payload ++ [k1, k2])).getD 2 0 =
        L / 256 := rfl
  have hg3 :
      (0xAA :: cid :: L / 256 :: L % 256 :: (payload ++ [k1, k2])).getD 3 0 =
        L % 256 := rfl
  have hdm : L / 256 * 256 + L % 256 = L := by omega
  have hno6 : ¬ (6 + L < 6) := by omega
  unfold decode_frame
  rw [hlen, hg0, hg1, hg2, hg3]
  simp only [unpack_u16, PROTO_START_BYTE, hdm, hdrop4, htake, hcrcslice,
    hk1, hk2, if_neg hno6]
  simp

theorem getD_append_of_lt (data extra : List Nat) (i : Nat)
    (hi : i < data.length) :
    (data ++ extra).getD i 0 = data.getD i 0 := by
  rw [List.getD_eq_getElem?_getD, List.getD_eq_getElem?_getD,
    List.getElem?_append_left hi]

theorem drop_take_append_of_le (data extra : List Nat) (n m : Nat)
    (hnm : n + m ≤ data.length) :
    ((data ++ extra).drop n).take m = (data.drop n).take m := by
  rw [List.drop_append_of_le_length (by omega),
    List.take_append_of_le_length (by simp; omega)]

/-! ## Claim theorems -/

/-- C3: `crc16_ccitt` coincides with the CRC-16/CCITT-FALSE reference
definition written from the spec's words (register initialised to `0xFFFF`,
each byte XORed into the high byte, 8 rounds of shift-left with conditional
XOR of polynomial `0x1021` when the high bit is set, masked to 16 bits after
every round, no reflection, no final XOR). It is defined for every byte list
including the empty one, and purity/determinism hold by construction in the
functional embedding. -/
theorem crc16_ccitt_eq_reference (data : List Nat) :
    crc16_ccitt data = crc16_reference data := by
  rw [crc16_ccitt, crc16_reference, crc16_reference_go_eq]

/-- C1: for every command id that fits in one byte and every payload of at
most 1024 bytes, encoding succeeds and decoding the encoded frame returns
exactly the original pair. -/
theorem encode_decode_roundtrip (command_id : Nat) (payload : List Nat)
    (h1 : command_id < 256) (h2 : payload.length ≤ 1024)
    (h3 : ∀ b ∈ payload, b < 256) :
    ∃ frame, encode_frame command_id payload = Except.ok frame ∧
      decode_frame frame = some (command_id, payload) := by
  have henc : encode_frame command_id payload =
      Except.ok (PROTO_START_BYTE :: command_id :: pack_u16 payload.length ++
        payload ++
        pack_u16 (crc16_ccitt (command_id :: pack_u16 payload.length ++
          payload))) := by
    unfold encode_frame PROTO_MAX_PAYLOAD
    rw [if_neg (by omega), if_neg (by omega)]
  refine ⟨_, henc, ?_⟩
  simp only [pack_u16, PROTO_START_BYTE, List.cons_append, List.nil_append,
    List.append_assoc]
  rw [decode_construct command_id payload.length payload _ _ rfl]
  have hdm : ∀ k : Nat, k / 256 * 256 + k % 256 = k := fun k => by omega
  simp [hdm]

/-- Witness for C1 at command id `0x11` and payload `[1, 244]` (the LED-blink
example frame). -/
theorem encode_decode_roundtrip_witness :
    (0x11 : Nat) < 256 ∧ ([1, 244] : List Nat).length ≤ 1024 ∧
      (∀ b ∈ ([1, 244] : List Nat), b < 256) ∧
      ∃ frame, encode_frame 0x11 [1, 244] = Except.ok frame ∧
        decode_frame frame = some (0x11, [1, 244]) :=
  ⟨by decide, by decide, by decide,
    encode_decode_roundtrip 0x11 [1, 244] (by decide) (by decide) (by decide)⟩

/-- C10: `decode_frame` ignores any bytes after the frame it accepts —
appending trailing bytes to a buffer that decodes successfully leaves the
decode result unchanged. -/
theorem decode_frame_ignores_trailing (data extra : List Nat)
    (r : Nat × List Nat) (h : decode_frame data = some r) :
    decode_frame (data ++ extra) = some r := by
  simp only [decode_frame] at h
  split at h
  · exact absurd h (by simp)
  rename_i h6
  split at h
  · exact absurd h (by simp)
  rename_i hstart
  split at h
  · exact absurd h (by simp)
  rename_i hlen3
  split at h
  · exact absurd h (by simp)
  rename_i hcrc
  simp only [decode_frame]
  rw [getD_append_of_lt data extra 0 (by omega),
    getD_append_of_lt data extra 1 (by omega),
    getD_append_of_lt data extra 2 (by omega),
    getD_append_of_lt data extra 3 (by omega)]
  rw [List.length_append]
  rw [if_neg (by omega), if_neg hstart, if_neg (by omega)]
  rw [drop_take_append_of_le data extra 4 _ (by omega),
    drop_take_append_of_le data extra 1 _ (by omega),
    getD_append_of_lt data extra _ (by omega),
    getD_append_of_lt data extra _ (by omega)]
  rw [if_neg hcrc]
  exact h

/-- Witness for C10: the valid 6-byte ping frame still decodes to the same
result after two junk bytes are appended. -/
theorem decode_frame_ignores_trailing_witness :
    decode_frame [0xAA, 1, 0, 0, 251, 172] = some (1, []) ∧
      decode_frame ([0xAA, 1, 0, 0, 251, 172] ++ [0xFF, 0x07]) =
        some (1, []) :=
  ⟨by decide,
    decode_frame_ignores_trailing [0xAA, 1, 0, 0, 251, 172] [0xFF, 0x07]
      (1, []) (by decide)⟩

/-- C2: `decode_frame` is total (in the Python source no raising operation is
reachable: every slice and index is guarded by the preceding length checks,
mirrored here by a total function) and returns `none` exactly on the
malformed inputs the claim enumerates; on every other input it returns the
(command id, payload) pair. -/
theorem decode_frame_none_iff_malformed (data : List Nat) :
    decode_frame data =
      if malformed_frame data then none
      else some (data.getD 1 0,
        (data.drop 4).take (declared_length data)) := by
  have hmf : (malformed_frame data = true) ↔
      (data.length < 6 ∨ data.getD 0 0 ≠ 0xAA ∨
        data.length < 6 + declared_length data ∨
        crc16_ccitt ((data.drop 1).take (3 + declared_length data)) ≠
          (data.getD (4 + declared_length data) 0) * 256 +
            data.getD (5 + declared_length data) 0) := by
    simp only [malformed_frame, Bool.or_eq_true, decide_eq_true_eq]
    tauto
  simp only [decode_frame, unpack_u16, PROTO_START_BYTE]
  by_cases h6 : data.length < 6
  · rw [if_pos h6, if_pos (hmf.mpr (Or.inl h6))]
  rw [if_neg h6]
  by_cases hstart : data.getD 0 0 ≠ 0xAA
  · rw [if_pos hstart, if_pos (hmf.mpr (Or.inr (Or.inl hstart)))]
  rw [if_neg hstart]
  by_cases hlen : data.length < 6 + (data.getD 2 0 * 256 + data.getD 3 0)
  · rw [if_pos hlen, if_pos (hmf.mpr (Or.inr (Or.inr (Or.inl
      (by simpa [declared_length] using hlen)))))]
  rw [if_neg hlen]
  by_cases hcrc :
      data.getD (4 + (data.getD 2 0 * 256 + data.getD 3 0)) 0 * 256 +
        data.getD (5 + (data.getD 2 0 * 256 + data.getD 3 0)) 0 ≠
        crc16_ccitt ((data.drop 1).take
          (3 + (data.getD 2 0 * 256 + data.getD 3 0)))
  · rw [if_pos hcrc, if_pos (hmf.mpr (Or.inr (Or.inr (Or.inr
      (by simpa [declared_length] using Ne.symm hcrc)))))]
  rw [if_neg hcrc, if_neg (fun hc => by
    rcases hmf.mp hc with h | h | h | h
    · exact h6 h
    · exact hstart h
    · exact hlen (by simpa [declared_length] using h)
    · exact hcrc (by simpa [declared_length] using Ne.symm h))]
  simp [declared_length]

/-- C4 counterexample: on a 1025-byte payload, `encode_frame` raises
`ValueError` (`raise` in the source, embedded as `Except.error`) instead of
returning a failure signal to its caller, refuting the claim that the
oversized-payload condition is reported "rather than raising an exception". -/
theorem encode_frame_oversized_raises :
    encode_frame 0x01 (List.replicate 1025 0) =
      Except.error "Payload too large: 1025 > 1024" := by
  unfold encode_frame PROTO_MAX_PAYLOAD
  rw [if_pos (by simp)]
  simp [List.length_replicate]
  rfl

/-- C4 amended: for every payload longer than 1024 bytes, `encode_frame`
detects the oversized-payload condition and fails without producing a frame,
but it does so by raising `ValueError` (modelled as `Except.error`), not by
returning a failure signal. -/
theorem encode_frame_oversized_error (command_id : Nat) (payload : List Nat)
    (h : 1024 < payload.length) :
    encode_frame command_id payload =
      Except.error ("Payload too large: " ++ toString payload.length ++
        " > " ++ toString PROTO_MAX_PAYLOAD) := by
  unfold encode_frame PROTO_MAX_PAYLOAD
  rw [if_pos (by omega)]

/-- Witness for the amended C4 at a concrete 1025-byte payload. -/
theorem encode_frame_oversized_error_witness :
    1024 < (List.replicate 1025 (0 : Nat)).length ∧
      encode_frame 0x01 (List.replicate 1025 (0 : Nat)) =
        Except.error ("Payload too large: " ++
          toString (List.replicate 1025 (0 : Nat)).length ++ " > " ++
          toString PROTO_MAX_PAYLOAD) :=
  ⟨by simp, encode_frame_oversized_error 0x01 _ (by simp)⟩

/-- C8: `parse_encoder_data` returns `none` exactly when the mandatory
leading int16 position cannot be read (fewer than 2 payload bytes); an
unreadable trailing velocity byte defaults to 0, an unreadable trailing
button byte defaults to `button_pressed = false`, and with all fields present
`button_pressed` is true iff the button byte equals 1. -/
theorem parse_encoder_data_spec (payload : List Nat) :
    parse_encoder_data payload =
      if payload.length < 2 then none
      else some
        { position := toInt16 (payload.getD 0 0 * 256 + payload.getD 1 0),
          velocity := if 3 ≤ payload.length then payload.getD 2 0 else 0,
          button_pressed :=
            if 4 ≤ payload.length then payload.getD 3 0 == 1 else false } := by
  simp only [parse_encoder_data, PayloadParser.read_int16,
    PayloadParser.read_uint8, unpack_u16]
  by_cases h2 : payload.length < 2
  · rw [if_pos (by omega : 0 + 2 > payload.length)]
    simp [h2]
  rw [if_neg (by omega : ¬ 0 + 2 > payload.length), if_neg h2]
  by_cases h3 : 3 ≤ payload.length
  · rw [if_neg (by omega : ¬ 0 + 2 + 1 > payload.length), if_pos h3]
    by_cases h4 : 4 ≤ payload.length
    · rw [if_neg (by omega : ¬ 0 + 2 + 1 + 1 > payload.length), if_pos h4]
      simp
    · rw [if_pos (by omega : 0 + 2 + 1 + 1 > payload.length), if_neg h4]
      simp
  · rw [if_pos (by omega : 0 + 2 + 1 > payload.length), if_neg h3,
      if_pos (by omega : 0 + 2 + 1 > payload.length),
      if_neg (by omega : ¬ 4 ≤ payload.length)]
    simp

/-- C9: `get_payload` is a pure read of the builder: it returns the
accumulated bytes and leaves the builder's buffer and capacity unchanged, so
a subsequent successful append extends the previously finalized content. -/
theorem get_payload_pure_read (b : PayloadBuilder) (v : Nat)
    (h : (b.add_uint8 v).1 = true) :
    b.get_payload.1 = b.buffer ∧ b.get_payload.2 = b ∧
      (b.get_payload.2.add_uint8 v).2.get_payload.1 =
        b.get_payload.1 ++ [v &&& 0xFF] := by
  refine ⟨rfl, rfl, ?_⟩
  by_cases hov : b.buffer.length + 1 > b.max_size
  · exact absurd h (by simp [PayloadBuilder.add_uint8, hov])
  · simp [PayloadBuilder.add_uint8, PayloadBuilder.get_payload, hov]

/-- Witness for C9 on a builder holding `[1]` with spare capacity. -/
theorem get_payload_pure_read_witness :
    ((⟨[1], 1024⟩ : PayloadBuilder).add_uint8 2).1 = true ∧
      ((⟨[1], 1024⟩ : PayloadBuilder).get_payload.1 = [1] ∧
        (⟨[1], 1024⟩ : PayloadBuilder).get_payload.2 = ⟨[1], 1024⟩ ∧
        ((⟨[1], 1024⟩ : PayloadBuilder).get_payload.2.add_uint8 2).2.get_payload.1 =
          (⟨[1], 1024⟩ : PayloadBuilder).get_payload.1 ++ [2 &&& 0xFF]) :=
  ⟨by decide, get_payload_pure_read ⟨[1], 1024⟩ 2 (by decide)⟩

/-- C5 counterexample: on the one-byte buffer `[5]` at cursor 0,
`read_string` reads the length byte 5, finds fewer than 5 bytes remaining and
returns `none` — but leaves the cursor at 1, not at its pre-call value 0, so
a failing read can partially consume the buffer. -/
theorem read_string_fails_but_consumes :
    (PayloadParser.read_string ⟨[5], 0⟩).1 = none ∧
      (PayloadParser.read_string ⟨[5], 0⟩).2.position = 1 ∧ (1 : Nat) ≠ 0 := by
  decide

/-- C5 amended: each fixed-width read (`read_uint8`, `read_uint16`,
`read_int16`, `read_int32`, `read_float`, `read_bytes`) either advances the
cursor by exactly the number of bytes it consumed and returns the decoded
value, or returns `none` and leaves the parser exactly as it was.
`read_string` obeys the same discipline when the length byte itself cannot be
read; but when the length byte was read and fewer than `length` bytes remain,
it returns `none` with the cursor advanced by exactly the one length byte it
consumed. -/
theorem reads_cursor_discipline (p : PayloadParser) (n : Nat) :
    (p.read_uint8.2 =
      if p.read_uint8.1.isSome then { p with position := p.position + 1 }
      else p) ∧
    (p.read_uint16.2 =
      if p.read_uint16.1.isSome then { p with position := p.position + 2 }
      else p) ∧
    (p.read_int16.2 =
      if p.read_int16.1.isSome then { p with position := p.position + 2 }
      else p) ∧
    (p.read_int32.2 =
      if p.read_int32.1.isSome then { p with position := p.position + 4 }
      else p) ∧
    (p.read_float.2 =
      if p.read_float.1.isSome then { p with position := p.position + 4 }
      else p) ∧
    ((p.read_bytes n).2 =
      if (p.read_bytes n).1.isSome then { p with position := p.position + n }
      else p) ∧
    (p.read_string.2 =
      match p.read_string.1 with
      | some s => { p with position := p.position + 1 + s.length }
      | none =>
        if p.buffer.length < p.position + 1 then p
        else { p with position := p.position + 1 }) := by
  refine ⟨?_, ?_, ?_, ?_, ?_, ?_, ?_⟩
  · by_cases h : p.position + 1 > p.buffer.length <;>
      simp [PayloadParser.read_uint8, h]
  · by_cases h : p.position + 2 > p.buffer.length <;>
      simp [PayloadParser.read_uint16, h]
  · by_cases h : p.position + 2 > p.buffer.length <;>
      simp [PayloadParser.read_int16, h]
  · by_cases h : p.position + 4 > p.buffer.length <;>
      simp [PayloadParser.read_int32, h]
  · by_cases h : p.position + 4 > p.buffer.length <;>
      simp [PayloadParser.read_float, h]
  · by_cases h : p.position + n > p.buffer.length <;>
      simp [PayloadParser.read_bytes, h]
  · unfold PayloadParser.read_string PayloadParser.read_uint8
    by_cases h1 : p.position + 1 > p.buffer.length
    · rw [if_pos h1]
      simp only []
      rw [if_pos (by omega)]
    · rw [if_neg h1]
      simp only []
      by_cases h2 :
          p.position + 1 + p.buffer.getD p.position 0 > p.buffer.length
      · rw [if_pos h2]
        simp only []
        rw [if_neg (by omega)]
      · rw [if_neg h2]
        simp only []
        have hslen :
            ((p.buffer.drop (p.position + 1)).take
              (p.buffer.getD p.position 0)).length =
              p.buffer.getD p.position 0 := by
          simp only [List.length_take, List.length_drop]
          omega
        rw [hslen]

/-- C6: every `PayloadBuilder` append whose write would make the buffer
exceed the configured maximum returns `false` and leaves the builder
completely unchanged — no bytes of the failing value are written. -/
theorem builder_overflow_no_partial_write (b : PayloadBuilder) (v : Nat)
    (i : Int) (bits : Nat) (s d : List Nat) :
    (b.buffer.length + 1 > b.max_size → b.add_uint8 v = (false, b)) ∧
    (b.buffer.length + 2 > b.max_size → b.add_uint16 v = (false, b)) ∧
    (b.buffer.length + 2 > b.max_size → b.add_int16 i = (false, b)) ∧
    (b.buffer.length + 4 > b.max_size → b.add_int32 i = (false, b)) ∧
    (b.buffer.length + 4 > b.max_size → b.add_float bits = (false, b)) ∧
    (b.buffer.length + 1 + s.length > b.max_size →
      b.add_string s = (false, b)) ∧
    (b.buffer.length + d.length > b.max_size → b.add_bytes d = (false, b)) := by
  refine ⟨fun h => ?_, fun h => ?_, fun h => ?_, fun h => ?_, fun h => ?_,
    fun h => ?_, fun h => ?_⟩
  · simp [PayloadBuilder.add_uint8, h]
  · simp [PayloadBuilder.add_uint16, h]
  · simp [PayloadBuilder.add_int16, h]
  · simp [PayloadBuilder.add_int32, h]
  · simp [PayloadBuilder.add_float, h]
  · simp [PayloadBuilder.add_string, h]
  · simp [PayloadBuilder.add_bytes, h]

/-- Witness for C6 on a full builder (buffer `[0]`, maximum size 1): all
seven appends fail and leave the builder unchanged. -/
theorem builder_overflow_no_partial_write_witness :
    PayloadBuilder.add_uint8 ⟨[0], 1⟩ 7 = (false, ⟨[0], 1⟩) ∧
    PayloadBuilder.add_uint16 ⟨[0], 1⟩ 7 = (false, ⟨[0], 1⟩) ∧
    PayloadBuilder.add_int16 ⟨[0], 1⟩ (-2) = (false, ⟨[0], 1⟩) ∧
    PayloadBuilder.add_int32 ⟨[0], 1⟩ (-2) = (false, ⟨[0], 1⟩) ∧
    PayloadBuilder.add_float ⟨[0], 1⟩ 1078530011 = (false, ⟨[0], 1⟩) ∧
    PayloadBuilder.add_string ⟨[0], 1⟩ [3] = (false, ⟨[0], 1⟩) ∧
    PayloadBuilder.add_bytes ⟨[0], 1⟩ [4] = (false, ⟨[0], 1⟩) := by
  obtain ⟨h1, h2, h3, h4, h5, h6, h7⟩ :=
    builder_overflow_no_partial_write ⟨[0], 1⟩ 7 (-2) 1078530011 [3] [4]
  exact ⟨h1 (by decide), h2 (by decide), h3 (by decide), h4 (by decide),
    h5 (by decide), h6 (by decide), h7 (by decide)⟩

/-- C7: `add_string` returns `false` (without touching the buffer) for every
string whose UTF-8 encoding `t` is longer than 255 bytes; and every string it
successfully appends is read back exactly by `read_string` positioned at the
start of the appended region (stated on the UTF-8 byte encodings `s`, which
`decode('utf-8', errors='replace')` maps back to the original text). -/
theorem add_string_bound_and_roundtrip (b b2 : PayloadBuilder)
    (s t : List Nat) (hlen : 255 < t.length)
    (happ : b.add_string s = (true, b2)) :
    b.add_string t = (false, b) ∧
      (PayloadParser.read_string ⟨b2.buffer, b.buffer.length⟩).1 = some s ∧
      (PayloadParser.read_string ⟨b2.buffer, b.buffer.length⟩).2.position =
        b.buffer.length + 1 + s.length := by
  have hreject : b.add_string t = (false, b) := by
    unfold PayloadBuilder.add_string
    by_cases ho : b.buffer.length + 1 + t.length > b.max_size
    · rw [if_pos ho]
    · rw [if_neg ho, if_pos hlen]
  have hb2 : b2.buffer = b.buffer ++ s.length :: s ∧ s.length ≤ 255 := by
    unfold PayloadBuilder.add_string at happ
    by_cases h1 : b.buffer.length + 1 + s.length > b.max_size
    · rw [if_pos h1] at happ
      exact absurd happ (by simp)
    rw [if_neg h1] at happ
    by_cases h2 : s.length > 255
    · rw [if_pos h2] at happ
      exact absurd happ (by simp)
    rw [if_neg h2] at happ
    have hsnd := congrArg Prod.snd happ
    simp only [] at hsnd
    refine ⟨?_, by omega⟩
    rw [← hsnd]
  have hgd : (b.buffer ++ s.length :: s).getD b.buffer.length 0 = s.length := by
    rw [List.getD_eq_getElem?_getD, List.getElem?_append_right (le_refl _)]
    simp
  have hdrop : (b.buffer ++ s.length :: s).drop (b.buffer.length + 1) = s := by
    have hsp : b.buffer ++ s.length :: s = (b.buffer ++ [s.length]) ++ s := by
      simp
    rw [hsp, show b.buffer.length + 1 = (b.buffer ++ [s.length]).length from
      by simp]
    exact List.drop_left _ _
  have hblen : (b.buffer ++ s.length :: s).length =
      b.buffer.length + 1 + s.length := by
    simp
    omega
  refine ⟨hreject, ?_, ?_⟩
  · rw [hb2.1]
    unfold PayloadParser.read_string PayloadParser.read_uint8
    simp only []
    rw [if_neg (by rw [hblen]; omega)]
    simp only [hgd, hblen]
    rw [if_neg (by omega)]
    simp [hdrop]
  · rw [hb2.1]
    unfold PayloadParser.read_string PayloadParser.read_uint8
    simp only []
    rw [if_neg (by rw [hblen]; omega)]
    simp only [hgd, hblen]
    rw [if_neg (by omega)]

/-- Witness for C7: rejecting a 256-byte encoding, and round-tripping the
2-byte encoding of `"Hi"` appended to an empty builder. -/
theorem add_string_bound_and_roundtrip_witness :
    255 < (List.replicate 256 (0 : Nat)).length ∧
      PayloadBuilder.add_string ⟨[], 10⟩ [72, 105] =
        (true, (⟨[2, 72, 105], 10⟩ : PayloadBuilder)) ∧
      (PayloadBuilder.add_string ⟨[], 10⟩ (List.replicate 256 (0 : Nat)) =
          (false, (⟨[], 10⟩ : PayloadBuilder)) ∧
        (PayloadParser.read_string ⟨[2, 72, 105], 0⟩).1 = some [72, 105] ∧
        (PayloadParser.read_string ⟨[2, 72, 105], 0⟩).2.position =
          ([] : List Nat).length + 1 + ([72, 105] : List Nat).length) :=
  ⟨by decide, by decide,
    add_string_bound_and_roundtrip ⟨[], 10⟩ ⟨[2, 72, 105], 10⟩ [72, 105]
      (List.replicate 256 (0 : Nat)) (by simp) (by decide)⟩

end BinaryProtocol
